import Mathlib

/-!
Verification of the usage-tracking system's data plane against its
natural-language specification.

The development shallowly embeds the Python sources:

* `shared/utils/billing.py` — cost calculation (`calculate_event_cost`,
  `_calculate_unit_count`, `_apply_tiered_rates`);
* `shared/database/repositories.py` — billing-rule selection
  (`BillingRuleRepository.get_active_billing_rule`), event upsert
  (`UsageEventRepository.upsert_event`);
* `services/event_processor/main.py` — event processing, failure
  handling, dead-letter routing;
* `services/aggregation_service/main.py` — per-period aggregate rows;
* `shared/utils/validators.py` — LLM event validation;
* `services/query_service/main.py` — trend analysis.

Monetary and metric values are modelled as exact rationals (`ℚ`);
Python's `round(x, 6)` is modelled as round-half-to-even at six decimal
places on the exact value.  Timestamps are modelled as integers.
Open `metrics` dictionaries are modelled as association lists from
string keys to rational values (only numeric metric values participate
in any of the verified claims).
-/

namespace UsageTracking

/-- Open metrics mapping (`event["metrics"]`): association list of
numeric-valued entries.  Python dicts have unique keys; lookup takes
the first binding. -/
abbrev Metrics := List (String × ℚ)

/-- Python `metrics.get(k, d)`. -/
def metricsGet (m : Metrics) (k : String) (d : ℚ) : ℚ :=
  (List.lookup k m).getD d

/-- Python `sum(metrics.values())`. -/
def metricsValuesSum (m : Metrics) : ℚ :=
  (m.map Prod.snd).sum

/-- Python dict assignment `metrics[k] = v`: replaces the existing
binding in place, or appends a new one. -/
def metricsSet (m : Metrics) (k : String) (v : ℚ) : Metrics :=
  if (List.lookup k m).isSome then
    m.map (fun p => if p.1 = k then (k, v) else p)
  else m ++ [(k, v)]

/-- One entry of `tiered_rates["tiers"]`: `{"from": …, "to": …, "rate": …}`
(`to` absent means unbounded). -/
structure Tier where
  tfrom : ℚ
  tto : Option ℚ
  rate : ℚ
  deriving Repr, DecidableEq

/-- The `tiered_rates` dictionary: `{"tiers": [...]}`. -/
structure TieredRates where
  tiers : List Tier
  deriving Repr, DecidableEq

/-- The rule dictionary handed to `calculate_event_cost`
(`EventProcessor._calculate_billing` builds it from a `BillingRule` row). -/
structure BillingRuleInfo where
  billing_unit : String
  rate_per_unit : ℚ
  calculation_method : String
  minimum_charge : Option ℚ
  tiered_rates : Option TieredRates
  deriving Repr, DecidableEq

/-- Python's `round(x, 6)`: round to six decimal places, ties to even
(modelled on the exact rational value). -/
def round6 (x : ℚ) : ℚ :=
  let y : ℚ := x * 1000000
  let f : ℤ := ⌊y⌋
  let frac : ℚ := y - f
  let r : ℤ :=
    if frac < 1/2 then f
    else if 1/2 < frac then f + 1
    else if f % 2 = 0 then f else f + 1
  (r : ℚ) / 1000000

/-- Embeds `_calculate_unit_count(service_type, billing_unit, metrics)`
from `shared/utils/billing.py`. -/
def calculateUnitCount (service_type billing_unit : String) (metrics : Metrics) : ℚ :=
  if service_type = "llm_service" then
    if billing_unit = "tokens" then metricsGet metrics "total_tokens" 0
    else if billing_unit = "requests" then 1
    else 1
  else if service_type = "document_processor" then
    if billing_unit = "pages" then metricsGet metrics "pages_processed" 0
    else if billing_unit = "bytes" then metricsGet metrics "file_size_bytes" 0
    else if billing_unit = "requests" then 1
    else 1
  else if service_type = "api_service" then
    if billing_unit = "requests" then metricsGet metrics "request_count" 1
    else if billing_unit = "bytes" then
      metricsGet metrics "payload_size_bytes" 0 + metricsGet metrics "response_size_bytes" 0
    else if billing_unit = "minutes" then metricsGet metrics "response_time_ms" 0 / 60000
    else 1
  else 1

/-- The `for tier in tiers` loop of `_apply_tiered_rates`, with the
running `remaining_units` and accumulated `total_cost`.  `break` on
`remaining_units <= 0`, `continue` on `unit_count <= tier["from"]`. -/
def applyTiersLoop (unit_count : ℚ) : List Tier → ℚ → ℚ → ℚ
  | [], _, acc => acc
  | t :: rest, remaining, acc =>
    if remaining ≤ 0 then acc
    else if unit_count ≤ t.tfrom then applyTiersLoop unit_count rest remaining acc
    else
      let tier_units :=
        match t.tto with
        | none => remaining
        | some tto => min remaining (tto - t.tfrom)
      applyTiersLoop unit_count rest (remaining - tier_units) (acc + tier_units * t.rate)

/-- Embeds `_apply_tiered_rates(unit_count, tiered_rates, base_rate)`
from `shared/utils/billing.py`. -/
def applyTieredRates (unit_count : ℚ) (tr : TieredRates) (base_rate : ℚ) : ℚ :=
  if tr.tiers = [] then unit_count * base_rate
  else applyTiersLoop unit_count tr.tiers unit_count 0

/-- The `billing_info` dictionary.  `calculate_event_cost` fills every
field; the two fallback dictionaries built inside
`EventProcessor._calculate_billing` omit some keys, modelled as `none`. -/
structure BillingInfo where
  total_cost : ℚ
  billing_unit : String
  unit_count : Option ℚ
  rate_per_unit : Option ℚ
  calculation_method : Option String
  base_cost : Option ℚ
  minimum_charge : Option ℚ
  calculated_at : Option ℤ
  deriving Repr, DecidableEq

/-- Embeds `calculate_event_cost(event_data, billing_rule)` from
`shared/utils/billing.py`.  `now` is `datetime.utcnow()` at the call.
Note the source applies `max(base_cost, minimum_charge or 0.0)` first
and then, if `tiered_rates` is truthy, overwrites `total_cost` with the
tiered value. -/
def calculateEventCost (service_type : String) (metrics : Metrics)
    (billing_rule : Option BillingRuleInfo) (now : ℤ) : BillingInfo :=
  match billing_rule with
  | none =>
      { total_cost := 0, billing_unit := "unknown", unit_count := some 0
        rate_per_unit := some 0, calculation_method := some "none"
        base_cost := none, minimum_charge := none, calculated_at := some now }
  | some rule =>
      let unit_count := calculateUnitCount service_type rule.billing_unit metrics
      let base_cost :=
        if rule.calculation_method = "multiply" then unit_count * rule.rate_per_unit
        else if rule.calculation_method = "sum" then metricsValuesSum metrics * rule.rate_per_unit
        else unit_count * rule.rate_per_unit
      let afterMin := max base_cost (rule.minimum_charge.getD 0)
      let total_cost :=
        match rule.tiered_rates with
        | some tr => applyTieredRates unit_count tr rule.rate_per_unit
        | none => afterMin
      { total_cost := round6 total_cost
        billing_unit := rule.billing_unit
        unit_count := some unit_count
        rate_per_unit := some rule.rate_per_unit
        calculation_method := some rule.calculation_method
        base_cost := some (round6 base_cost)
        minimum_charge := rule.minimum_charge
        calculated_at := some now }

/-! ## Billing-rule rows and selection (`shared/database/repositories.py`) -/

/-- A `billing_rules` table row (the columns used by rule selection and
pricing). -/
structure BillingRule where
  service_type : String
  provider : String
  model_or_tier : Option String
  is_active : Bool
  effective_from : ℤ
  effective_until : Option ℤ
  billing_unit : String
  rate_per_unit : ℚ
  calculation_method : String
  minimum_charge : Option ℚ
  tiered_rates : Option TieredRates
  deriving Repr, DecidableEq

/-- The WHERE clause of `BillingRuleRepository.get_active_billing_rule`:
matching `service_type`/`provider`, `is_active`,
`effective_from <= effective_date`, and `effective_until` null or
`> effective_date`.  The `model_or_tier` equality filter is added only
when the passed `model_or_tier` argument is truthy (a non-empty string). -/
def ruleMatchesQuery (st prov : String) (mot : Option String) (t : ℤ)
    (r : BillingRule) : Bool :=
  decide (r.service_type = st) && decide (r.provider = prov) && r.is_active &&
  decide (r.effective_from ≤ t) &&
  (match r.effective_until with
   | none => true
   | some u => decide (t < u)) &&
  (match mot with
   | none => true
   | some m => if m = "" then true else decide (r.model_or_tier = some m))

/-- The ORDER BY of `get_active_billing_rule`:
`model_or_tier DESC NULLS LAST, effective_from DESC`.
`ruleSortsBefore r1 r2` holds when `r1` sorts strictly before `r2`. -/
def ruleSortsBefore (r1 r2 : BillingRule) : Bool :=
  match r1.model_or_tier, r2.model_or_tier with
  | some m1, some m2 =>
      if m1 = m2 then decide (r2.effective_from < r1.effective_from)
      else decide (m2 < m1)
  | some _, none => true
  | none, some _ => false
  | none, none => decide (r2.effective_from < r1.effective_from)

/-- One comparison step of taking the first row of the ordered result. -/
def pickRule (best c : BillingRule) : BillingRule :=
  if ruleSortsBefore c best then c else best

/-- Models `.scalars().first()` on the ordered query result: the row
that no other candidate sorts strictly before.  SQL leaves the order of
rows with equal sort keys unspecified; this embedding breaks such ties
by row order. -/
def firstOrdered : List BillingRule → Option BillingRule
  | [] => none
  | r :: rs => some (rs.foldl pickRule r)

/-- Embeds `BillingRuleRepository.get_active_billing_rule` over an
explicit list of table rows.  `t` is the `effective_date` argument
(the caller in the processor leaves it defaulted, so it is the
processing time `datetime.utcnow()`, not the event's timestamp). -/
def getActiveBillingRule (rules : List BillingRule) (st prov : String)
    (mot : Option String) (t : ℤ) : Option BillingRule :=
  firstOrdered (rules.filter (ruleMatchesQuery st prov mot t))

/-- The two-query selection of `EventProcessor._calculate_billing`:
first try the model-specific lookup, then fall back to the lookup
without a model argument. -/
def selectBillingRule (rules : List BillingRule) (st prov : String)
    (model : Option String) (t : ℤ) : Option BillingRule :=
  match getActiveBillingRule rules st prov model t with
  | some r => some r
  | none => getActiveBillingRule rules st prov none t

/-- The `rule_dict` conversion inside `_calculate_billing`.  Note
`float(billing_rule.minimum_charge) if billing_rule.minimum_charge else
None`: a zero minimum charge is mapped to `None` by truthiness. -/
def ruleToInfo (r : BillingRule) : BillingRuleInfo :=
  { billing_unit := r.billing_unit
    rate_per_unit := r.rate_per_unit
    calculation_method := r.calculation_method
    minimum_charge :=
      match r.minimum_charge with
      | some m => if m = 0 then none else some m
      | none => none
    tiered_rates := r.tiered_rates }

/-! ## Processor events (`services/event_processor/main.py`) -/

/-- An event dictionary as it flows through the processor and is
upserted into the `usage_events` table.  Missing dictionary keys are
`none`.  `model` is `event["metadata_"]["model"]`. -/
structure PyEvent where
  event_id : Option String
  tenant_id : Option String
  user_id : Option String
  service_type : Option String
  service_provider : Option String
  event_type : Option String
  timestamp : Option ℤ
  model : Option String
  metrics : Metrics
  status : String
  error_message : Option String
  retry_count : Option ℕ
  billing_info : Option BillingInfo
  total_cost : Option ℚ
  processed_at : Option ℤ
  dead_letter_at : Option ℤ
  deriving Repr, DecidableEq

/-- An event dictionary with no keys set (base for concrete examples). -/
def emptyEvent : PyEvent :=
  { event_id := none, tenant_id := none, user_id := none
    service_type := none, service_provider := none, event_type := none
    timestamp := none, model := none, metrics := []
    status := "pending", error_message := none, retry_count := none
    billing_info := none, total_cost := none
    processed_at := none, dead_letter_at := none }

/-- The required-field check at the top of `_process_single_event`. -/
def requiredFieldsPresent (e : PyEvent) : Bool :=
  e.tenant_id.isSome && e.user_id.isSome && e.service_type.isSome &&
  e.service_provider.isSome && e.event_type.isSome

/-- Embeds `EventProcessor._enrich_event` on the path where the service
registry has no active configuration (`get_service_config` returns
`None`, as in the repository's unit tests): stamp `processed_at` and,
for `llm_service` with both token counts, derive `total_tokens`.
The `session_start`/`session_end` branch needs string-valued metrics
and is outside the numeric metrics model. -/
def enrichEvent (e : PyEvent) (now : ℤ) : PyEvent :=
  let metrics :=
    if e.service_type = some "llm_service" then
      match List.lookup "input_tokens" e.metrics, List.lookup "output_tokens" e.metrics with
      | some i, some o => metricsSet e.metrics "total_tokens" (i + o)
      | _, _ => e.metrics
    else e.metrics
  { e with processed_at := some now, metrics := metrics }

/-- The `{"total_cost": 0.0, "billing_unit": "unknown"}` dictionary
returned by `_calculate_billing` when service type or provider is
missing. -/
def billingShortZero : BillingInfo :=
  { total_cost := 0, billing_unit := "unknown", unit_count := none
    rate_per_unit := none, calculation_method := none
    base_cost := none, minimum_charge := none, calculated_at := none }

/-- The default billing dictionary returned by `_calculate_billing`
when no rule matches. -/
def billingDefaultZero : BillingInfo :=
  { total_cost := 0, billing_unit := "unknown", unit_count := none
    rate_per_unit := some 0, calculation_method := some "none"
    base_cost := none, minimum_charge := none, calculated_at := none }

/-- Embeds `EventProcessor._calculate_billing`: select a rule using the
processing time `now`, convert it, and run `calculate_event_cost`. -/
def calculateBilling (rules : List BillingRule) (e : PyEvent) (now : ℤ) : BillingInfo :=
  match e.service_type, e.service_provider with
  | some st, some prov =>
      if st = "" || prov = "" then billingShortZero
      else
        match selectBillingRule rules st prov e.model now with
        | some rule => calculateEventCost st e.metrics (some (ruleToInfo rule)) now
        | none => billingDefaultZero
  | _, _ => billingShortZero

/-- The billing rule `_calculate_billing` ends up pricing with. -/
def usedBillingRule (rules : List BillingRule) (e : PyEvent) (now : ℤ) : Option BillingRule :=
  match e.service_type, e.service_provider with
  | some st, some prov =>
      if st = "" || prov = "" then none
      else selectBillingRule rules st prov e.model now
  | _, _ => none

/-- Embeds `EventProcessor._process_single_event`.  Returns `none` when
`event_id` is missing.  The modelled exception source is the
required-field `ValueError`; on it the event is marked `failed`, the
error message set, and `retry_count` incremented.  On success the event
is enriched, priced, and marked `completed`. -/
def processSingleEvent (rules : List BillingRule) (e : PyEvent) (now : ℤ) : Option PyEvent :=
  match e.event_id with
  | none => none
  | some _ =>
    if requiredFieldsPresent e then
      let enriched := enrichEvent e now
      let billing := calculateBilling rules enriched now
      some { enriched with
               billing_info := some billing
               total_cost := some billing.total_cost
               status := "completed"
               error_message := none }
    else
      some { e with
               status := "failed"
               error_message := some "Missing required field"
               retry_count := some (e.retry_count.getD 0 + 1) }

/-- Embeds `UsageEventRepository.upsert_event`: INSERT with
`ON CONFLICT (event_id) DO UPDATE SET status, billing_info, total_cost,
error_message, retry_count`. -/
def upsertEvent (store : List PyEvent) (e : PyEvent) : List PyEvent :=
  if store.any (fun r => r.event_id = e.event_id) then
    store.map (fun r =>
      if r.event_id = e.event_id then
        { r with status := e.status, billing_info := e.billing_info
                 total_cost := e.total_cost, error_message := e.error_message
                 retry_count := e.retry_count }
      else r)
  else store ++ [e]

/-- Embeds `EventProcessor._store_events` on the success path: upsert
each event in order. -/
def storeEvents (store : List PyEvent) (events : List PyEvent) : List PyEvent :=
  events.foldl upsertEvent store

/-- Row lookup by `event_id`. -/
def findEvent (store : List PyEvent) (eid : String) : Option PyEvent :=
  store.find? (fun r => r.event_id = some eid)

/-- Embeds `EventProcessor._send_to_dead_letter_queue`: mark each event
`dead_letter`, stamp `dead_letter_at`, and push. -/
def sendToDeadLetterQueue (events : List PyEvent) (now : ℤ) : List PyEvent :=
  events.map (fun e => { e with status := "dead_letter", dead_letter_at := some now })

/-- The outcome of one `_process_event_batch` call: the events upserted
into the store (`successful_events`), the events re-enqueued onto
`usage_events`, and the events pushed onto `dead_letter_events`. -/
structure BatchOutcome where
  stored : List PyEvent
  requeued : List PyEvent
  deadLettered : List PyEvent
  deriving Repr, DecidableEq

/-- Embeds `EventProcessor._process_event_batch` together with
`_handle_failed_events` (the only caller of
`_send_to_dead_letter_queue`): an event counts as failed only when
`_process_single_event` returns a falsy value (missing `event_id`);
otherwise its returned dictionary — even one marked `failed` — joins
`successful_events` and is upserted.  Failed events split on
`retry_count < 3` between re-enqueue and the dead-letter queue. -/
def processEventBatch (rules : List BillingRule) (events : List PyEvent)
    (now : ℤ) : BatchOutcome :=
  let successful := events.filterMap (fun e => processSingleEvent rules e now)
  let failed := events.filter (fun e => (processSingleEvent rules e now).isNone)
  let retry := failed.filter (fun e => decide (e.retry_count.getD 0 < 3))
  let dead := failed.filter (fun e => ! decide (e.retry_count.getD 0 < 3))
  { stored := successful
    requeued := retry
    deadLettered := sendToDeadLetterQueue dead now }

/-! ## Aggregation rows (`services/aggregation_service/main.py`) -/

/-- A `usage_aggregates` row as assembled by
`AggregationService._create_aggregate` (`aggregate_data`), which the
repository upsert writes verbatim on the composite identity. -/
structure AggregateRow where
  tenant_id : String
  period_start : ℤ
  period_end : ℤ
  period_type : String
  service_type : Option String
  service_provider : Option String
  user_id : Option String
  event_count : ℕ
  unique_users : ℕ
  total_cost : Option ℚ
  avg_latency_ms : Option ℚ
  p95_latency_ms : Option ℚ
  error_count : ℕ
  error_rate : ℚ
  deriving Repr, DecidableEq

/-- The WHERE conditions of `_create_aggregate`: tenant, timestamp in
`[period_start, period_end)`, `status == completed`, and the optional
dimension filters (added only when the argument is truthy, i.e. a
non-empty string). -/
def aggConditions (tenant : String) (ps pe : ℤ)
    (st sp uid : Option String) (r : PyEvent) : Bool :=
  decide (r.tenant_id = some tenant) &&
  (match r.timestamp with
   | some ts => decide (ps ≤ ts) && decide (ts < pe)
   | none => false) &&
  decide (r.status = "completed") &&
  (match st with
   | some s => if s = "" then true else decide (r.service_type = some s)
   | none => true) &&
  (match sp with
   | some s => if s = "" then true else decide (r.service_provider = some s)
   | none => true) &&
  (match uid with
   | some s => if s = "" then true else decide (r.user_id = some s)
   | none => true)

/-- SQL `SUM` over a nullable column: NULL values are skipped and the
result is NULL when no non-NULL value exists. -/
def sqlSum (l : List (Option ℚ)) : Option ℚ :=
  let vals := l.filterMap id
  if vals = [] then none else some vals.sum

/-- SQL `AVG` over a nullable column, analogously. -/
def sqlAvg (l : List (Option ℚ)) : Option ℚ :=
  let vals := l.filterMap id
  if vals = [] then none else some (vals.sum / vals.length)

/-- The Python pattern `float(x) if x else None`: both `None` and a
zero value become `None`. -/
def pyFloatOrNone (o : Option ℚ) : Option ℚ :=
  match o with
  | some v => if v = 0 then none else some v
  | none => none

/-- Embeds `AggregationService._create_aggregate` over an explicit list
of event rows: run the aggregation query and, when `event_count > 0`,
build the `aggregate_data` row handed to
`UsageAggregateRepository.upsert_aggregate`.  `error_count` is the SQL
literal 0; `error_rate` is `error_count / event_count`. -/
def createAggregate (events : List PyEvent) (tenant : String)
    (period_type : String) (ps pe : ℤ)
    (st sp uid : Option String) : Option AggregateRow :=
  let matching := events.filter (aggConditions tenant ps pe st sp uid)
  if matching.length = 0 then none
  else
    let latency := matching.map (fun r => List.lookup "latency_ms" r.metrics)
    some
      { tenant_id := tenant
        period_start := ps
        period_end := pe
        period_type := period_type
        service_type := st
        service_provider := sp
        user_id := uid
        event_count := matching.length
        unique_users := (matching.map (fun r => r.user_id)).dedup.length
        total_cost := pyFloatOrNone (sqlSum (matching.map (fun r => r.total_cost)))
        avg_latency_ms := pyFloatOrNone (sqlAvg latency)
        p95_latency_ms := pyFloatOrNone (some ((sqlAvg latency).getD 0))
        error_count := 0
        error_rate := 0 }

/-! ## LLM event validation (`shared/utils/validators.py`) -/

/-- Raw input to `LLMEventData` (the fields the verified claims need;
missing keys are `none`). -/
structure LLMRawEvent where
  tenant_id : Option String
  user_id : Option String
  service_provider : Option String
  model : Option String
  input_tokens : Option ℤ
  output_tokens : Option ℤ
  total_tokens : Option ℤ
  temperature : Option ℚ
  max_tokens : Option ℤ
  latency_ms : Option ℤ
  deriving Repr, DecidableEq

/-- A successfully validated LLM event (the constrained fields). -/
structure LLMValidated where
  tenant_id : String
  user_id : String
  service_provider : String
  model : String
  input_tokens : ℤ
  output_tokens : ℤ
  total_tokens : ℤ
  temperature : Option ℚ
  deriving Repr, DecidableEq

/-- Embeds the `LLMEventData` pydantic model used by
`validate_event_data` for `llm_service`: required `tenant_id`,
`user_id`, `service_provider` (1–255 chars), `model` (min length 1),
`input_tokens` with `gt=0`, `output_tokens` with `ge=0`, optional
`temperature` in `[0, 2]`, optional `max_tokens` with `gt=0`, optional
`latency_ms` with `ge=0`; `total_tokens` defaults to
`input_tokens + output_tokens` when absent. -/
def validateLLMEvent (e : LLMRawEvent) : Option LLMValidated :=
  match e.tenant_id, e.user_id, e.service_provider, e.model,
        e.input_tokens, e.output_tokens with
  | some tid, some uid, some sp, some m, some i, some o =>
      if decide (1 ≤ tid.length) && decide (tid.length ≤ 255) &&
         decide (1 ≤ uid.length) && decide (uid.length ≤ 255) &&
         decide (1 ≤ sp.length) && decide (sp.length ≤ 255) &&
         decide (1 ≤ m.length) &&
         decide (0 < i) && decide (0 ≤ o) &&
         (match e.temperature with
          | none => true
          | some temp => decide (0 ≤ temp) && decide (temp ≤ 2)) &&
         (match e.max_tokens with
          | none => true
          | some mt => decide (0 < mt)) &&
         (match e.latency_ms with
          | none => true
          | some l => decide (0 ≤ l))
      then some
        { tenant_id := tid, user_id := uid, service_provider := sp
          model := m, input_tokens := i, output_tokens := o
          total_tokens := e.total_tokens.getD (i + o)
          temperature := e.temperature }
      else none
  | _, _, _, _, _, _ => none

/-! ## Trend analysis (`services/query_service/main.py`) -/

/-- Embeds the trend computation of `get_trend_analysis`: split the
metric series at `len // 2`, compare the half means against a ±5%
band (`1.05` and `0.95` as decimals), and compute the percentage
change when the first-half mean is positive.  Returns
`(trend_direction, percentage_change)`. -/
def trendAnalysis (values : List ℚ) : String × ℚ :=
  if 2 ≤ values.length then
    let first_half := values.take (values.length / 2)
    let second_half := values.drop (values.length / 2)
    let first_avg := if first_half = [] then 0 else first_half.sum / first_half.length
    let second_avg := if second_half = [] then 0 else second_half.sum / second_half.length
    let dir :=
      if first_avg * (105/100) < second_avg then "up"
      else if second_avg < first_avg * (95/100) then "down"
      else "stable"
    let pct := if 0 < first_avg then ((second_avg - first_avg) / first_avg) * 100 else 0
    (dir, pct)
  else ("stable", 0)

/-! ## Specification-side definitions

The following definitions transcribe the wording of spec/claim
statements (not the source); they exist to be compared against the
embedded code. -/

/-- Claim wording (spec §4.2): the cost contribution of one tier is the
width of `[max(from, 0), min(to, unit_count))` on the unit line times
the tier rate (`to` absent means unbounded). -/
def specTierCost (unit_count : ℚ) (t : Tier) : ℚ :=
  t.rate * max 0 ((match t.tto with
                   | none => unit_count
                   | some b => min b unit_count) - max t.tfrom 0)

/-- Sorted, contiguous tiers anchored at `a`: the first tier starts at
`a`, each bounded tier ends where the next begins, and an unbounded
tier is last. -/
def tiersFrom : ℚ → List Tier → Bool
  | _, [] => true
  | a, t :: rest =>
      decide (t.tfrom = a) &&
      (match t.tto with
       | none => rest.isEmpty
       | some b => decide (a ≤ b) && tiersFrom b rest)

/-- Largest `effective_from` among a list of candidate rules (first one
on ties). -/
def argmaxEffectiveFrom : List BillingRule → Option BillingRule
  | [] => none
  | r :: rs =>
      some (rs.foldl (fun best c =>
        if best.effective_from < c.effective_from then c else best) r)

/-- Rule selection as claim C1 words it: among rules with matching
`service_type` and `provider` that are active and whose
`[effective_from, effective_until)` contains the event timestamp,
prefer rules whose `model_or_tier` equals the event model, otherwise
those with `model_or_tier` null, and take the largest `effective_from`
among the survivors. -/
def claimRuleSelection (rules : List BillingRule) (st prov : String)
    (model : Option String) (eventTs : ℤ) : Option BillingRule :=
  let base := rules.filter (fun r =>
    decide (r.service_type = st) && decide (r.provider = prov) && r.is_active &&
    decide (r.effective_from ≤ eventTs) &&
    (match r.effective_until with
     | none => true
     | some u => decide (eventTs < u)))
  let preferred :=
    match model with
    | some m => base.filter (fun r => decide (r.model_or_tier = some m))
    | none => []
  let survivors :=
    if preferred.isEmpty then base.filter (fun r => r.model_or_tier.isNone)
    else preferred
  argmaxEffectiveFrom survivors

/-- Claim wording (C5): the completed events of a tenant whose
timestamp lies in `[period_start, period_end)`. -/
def completedEventsInPeriod (events : List PyEvent) (tenant : String)
    (ps pe : ℤ) : List PyEvent :=
  events.filter (fun r =>
    decide (r.tenant_id = some tenant) &&
    (match r.timestamp with
     | some ts => decide (ps ≤ ts) && decide (ts < pe)
     | none => false) &&
    decide (r.status = "completed"))

/-- Claim wording (C9): mean of the first half of the series (split at
the midpoint `len / 2`). -/
def firstHalfMean (values : List ℚ) : ℚ :=
  (values.take (values.length / 2)).sum / ((values.take (values.length / 2)).length)

/-- Claim wording (C9): mean of the second half of the series. -/
def secondHalfMean (values : List ℚ) : ℚ :=
  (values.drop (values.length / 2)).sum / ((values.drop (values.length / 2)).length)

/-! ## Concrete example data -/

/-- The tier schedule of spec scenario 2:
`[{0,1000,0.01}, {1000,10000,0.008}, {10000,null,0.005}]`. -/
def exampleTiers : List Tier :=
  [⟨0, some 1000, 1/100⟩, ⟨1000, some 10000, 8/1000⟩, ⟨10000, none, 5/1000⟩]

/-- A tokens rule carrying the example tier schedule and no minimum
charge. -/
def exampleTieredRule : BillingRuleInfo :=
  { billing_unit := "tokens", rate_per_unit := 0
    calculation_method := "multiply", minimum_charge := none
    tiered_rates := some ⟨exampleTiers⟩ }

/-- A tokens rule with a single all-covering tier at rate 0.001 and a
minimum charge of 5. -/
def minChargeTieredRule : BillingRuleInfo :=
  { billing_unit := "tokens", rate_per_unit := 1/1000
    calculation_method := "multiply", minimum_charge := some 5
    tiered_rates := some ⟨[⟨0, none, 1/1000⟩]⟩ }

/-- C1 example: the provider-default rule effective over `[0, 50)`. -/
def c1RuleOld : BillingRule :=
  { service_type := "llm_service", provider := "openai"
    model_or_tier := none, is_active := true
    effective_from := 0, effective_until := some 50
    billing_unit := "tokens", rate_per_unit := 1
    calculation_method := "multiply", minimum_charge := none
    tiered_rates := none }

/-- C1 example: a rule for an unrelated model, effective from 100 on. -/
def c1RuleOther : BillingRule :=
  { service_type := "llm_service", provider := "openai"
    model_or_tier := some "zzz-model", is_active := true
    effective_from := 100, effective_until := none
    billing_unit := "tokens", rate_per_unit := 2
    calculation_method := "multiply", minimum_charge := none
    tiered_rates := none }

/-- C1 example: an event with timestamp 10 and no model, processed at
time 200. -/
def c1Event : PyEvent :=
  { emptyEvent with
      event_id := some "evt-c1", tenant_id := some "tenant-1"
      user_id := some "user-1", service_type := some "llm_service"
      service_provider := some "openai", event_type := some "completion"
      timestamp := some 10, metrics := [("total_tokens", 7)] }

/-- C2 example: an always-active tokens rule at rate 2. -/
def c2Rule : BillingRule :=
  { service_type := "llm_service", provider := "openai"
    model_or_tier := none, is_active := true
    effective_from := 0, effective_until := none
    billing_unit := "tokens", rate_per_unit := 2
    calculation_method := "multiply", minimum_charge := none
    tiered_rates := none }

/-- C2 example: a fully populated LLM event. -/
def c2Event : PyEvent :=
  { emptyEvent with
      event_id := some "evt-c2", tenant_id := some "tenant-1"
      user_id := some "user-1", service_type := some "llm_service"
      service_provider := some "openai", event_type := some "completion"
      timestamp := some 10
      metrics := [("total_tokens", 3)] }

/-- The billing dictionary computed for `c2Event` under `c2Rule` at
processing time `t`. -/
def c2Billing (t : ℤ) : BillingInfo :=
  { total_cost := 6, billing_unit := "tokens", unit_count := some 3
    rate_per_unit := some 2, calculation_method := some "multiply"
    base_cost := some 6, minimum_charge := none, calculated_at := some t }

/-- The row produced by processing `c2Event` at time `t`. -/
def c2Row (t : ℤ) : PyEvent :=
  { c2Event with
      status := "completed", billing_info := some (c2Billing t)
      total_cost := some 6, processed_at := some t }

/-- C5 example: a completed event whose computed cost is 0. -/
def c5Event : PyEvent :=
  { emptyEvent with
      event_id := some "evt-c5", tenant_id := some "tenant-5"
      user_id := some "user-5", service_type := some "llm_service"
      service_provider := some "openai", event_type := some "completion"
      timestamp := some 5, status := "completed", total_cost := some 0 }

/-- C5 witness example: a completed event with cost 7. -/
def c5EventB : PyEvent :=
  { emptyEvent with
      event_id := some "evt-c5b", tenant_id := some "tenant-5"
      user_id := some "user-5", service_type := some "llm_service"
      service_provider := some "openai", event_type := some "completion"
      timestamp := some 6, status := "completed", total_cost := some 7 }

/-- C6 failing input: an event with an `event_id` but no `user_id`, so
processing raises the required-field `ValueError`. -/
def c6Event : PyEvent :=
  { emptyEvent with
      event_id := some "evt-c6", tenant_id := some "tenant-1"
      service_type := some "llm_service"
      service_provider := some "openai", event_type := some "completion"
      retry_count := some 0 }

/-- C7 witness example: a failed event (no `event_id`) that already
exhausted its retries. -/
def c7Event : PyEvent :=
  { emptyEvent with tenant_id := some "tenant-1", retry_count := some 5 }

/-- C8 counterexample input: a fully populated LLM event whose
`input_tokens` is 0. -/
def c8Event : LLMRawEvent :=
  { tenant_id := some "tenant-1", user_id := some "user-1"
    service_provider := some "openai", model := some "gpt-4"
    input_tokens := some 0, output_tokens := some 5
    total_tokens := none, temperature := none
    max_tokens := none, latency_ms := none }

/-- C8 witness input: the same event with `input_tokens` 1. -/
def c8EventOk : LLMRawEvent :=
  { c8Event with input_tokens := some 1 }

/-! ## Theorems -/

/-- C6 (code bug): an event whose processing raises (here: missing
`user_id`) is marked `failed` with the error message set and
`retry_count` incremented — but `_process_single_event` returns the
dictionary, so `_process_event_batch` counts it among
`successful_events`: it is upserted into the store with
`status="failed"` and is neither re-enqueued onto `usage_events` nor
dead-lettered, contrary to the claimed retry routing. -/
theorem C6_failed_event_routing :
    (processEventBatch [] [c6Event] 0).stored
      = [{ c6Event with
             status := "failed"
             error_message := some "Missing required field"
             retry_count := some 1 }]
    ∧ (processEventBatch [] [c6Event] 0).requeued = []
    ∧ (processEventBatch [] [c6Event] 0).deadLettered = [] := by
  decide

/-- C7: every event pushed onto `dead_letter_events` by a processing
batch has `retry_count ≥ 3`, status `dead_letter`, and a
`dead_letter_at` timestamp (`_handle_failed_events` routes only
`retry_count >= 3` failures to `_send_to_dead_letter_queue`, which is
the sole producer of that queue). -/
theorem C7_dlq_terminal (rules : List BillingRule) (events : List PyEvent)
    (now : ℤ) (x : PyEvent)
    (hx : x ∈ (processEventBatch rules events now).deadLettered) :
    3 ≤ x.retry_count.getD 0 ∧ x.status = "dead_letter"
      ∧ x.dead_letter_at = some now := by
  simp only [processEventBatch, sendToDeadLetterQueue, List.mem_map,
    List.mem_filter, Bool.not_eq_eq_eq_not, Bool.not_true,
    decide_eq_false_iff_not, not_lt] at hx
  obtain ⟨e, ⟨_, hrc⟩, hxe⟩ := hx
  subst hxe
  exact ⟨hrc, rfl, rfl⟩

/-- Witness for C7 at a concrete dead-lettered event. -/
theorem C7_dlq_terminal_witness :
    ({ c7Event with status := "dead_letter", dead_letter_at := some 0 }
        ∈ (processEventBatch [] [c7Event] 0).deadLettered)
    ∧ (3 ≤ ({ c7Event with status := "dead_letter", dead_letter_at := some 0 }
          : PyEvent).retry_count.getD 0) := by
  refine ⟨by decide, ?_⟩
  exact (C7_dlq_terminal [] [c7Event] 0 _ (by decide)).1

/-- C10: every aggregate row the aggregation engine writes has
`error_count = 0` and `error_rate = 0` (the aggregation query selects
the SQL literal 0 as `error_count`, and only completed events). -/
theorem C10_error_counters_zero (events : List PyEvent)
    (tenant period_type : String) (ps pe : ℤ) (st sp uid : Option String)
    (row : AggregateRow)
    (h : createAggregate events tenant period_type ps pe st sp uid = some row) :
    row.error_count = 0 ∧ row.error_rate = 0 := by
  simp only [createAggregate] at h
  split at h
  · exact absurd h (by simp)
  · obtain rfl := (Option.some_inj.mp h).symm
    exact ⟨rfl, rfl⟩

/-- Witness for C10 at a concrete aggregate row. -/
theorem C10_error_counters_zero_witness :
    createAggregate [c5EventB] "tenant-5" "hour" 0 10 none none none
        = some { tenant_id := "tenant-5", period_start := 0, period_end := 10
                 period_type := "hour", service_type := none
                 service_provider := none, user_id := none
                 event_count := 1, unique_users := 1, total_cost := some 7
                 avg_latency_ms := none, p95_latency_ms := none
                 error_count := 0, error_rate := 0 }
    ∧ (0 : ℕ) = 0 ∧ (0 : ℚ) = 0 := by
  have h : createAggregate [c5EventB] "tenant-5" "hour" 0 10 none none none
      = some { tenant_id := "tenant-5", period_start := 0, period_end := 10
               period_type := "hour", service_type := none
               service_provider := none, user_id := none
               event_count := 1, unique_users := 1, total_cost := some 7
               avg_latency_ms := none, p95_latency_ms := none
               error_count := 0, error_rate := 0 } := by
    norm_num [createAggregate, aggConditions, sqlSum, sqlAvg, pyFloatOrNone,
      c5EventB, emptyEvent, List.dedup]
    try simp
  refine ⟨h, ?_, ?_⟩
  · exact (C10_error_counters_zero [c5EventB] "tenant-5" "hour" 0 10
      none none none _ h).1
  · exact (C10_error_counters_zero [c5EventB] "tenant-5" "hour" 0 10
      none none none _ h).2

/-- C9: trend analysis splits the series at the midpoint, chooses the
direction by comparing the half means with a ±5% dead band, computes
`percentage_change = (second − first)/first × 100` when the first-half
mean is positive, and the literal series
`[10,10,10,10,100,100,100,100]` yields `("up", 900)`. -/
theorem C9_trend_analysis :
    trendAnalysis [10, 10, 10, 10, 100, 100, 100, 100] = ("up", 900)
    ∧ ∀ (vs : List ℚ), 2 ≤ vs.length →
        ((trendAnalysis vs).1 = "up"
            ↔ firstHalfMean vs * (105/100) < secondHalfMean vs)
        ∧ ((trendAnalysis vs).1 = "down"
            ↔ (¬ firstHalfMean vs * (105/100) < secondHalfMean vs
               ∧ secondHalfMean vs < firstHalfMean vs * (95/100)))
        ∧ ((trendAnalysis vs).1 = "stable"
            ↔ (¬ firstHalfMean vs * (105/100) < secondHalfMean vs
               ∧ ¬ secondHalfMean vs < firstHalfMean vs * (95/100)))
        ∧ (0 < firstHalfMean vs →
            (trendAnalysis vs).2
              = ((secondHalfMean vs - firstHalfMean vs) / firstHalfMean vs) * 100) := by
  constructor
  · norm_num +decide [trendAnalysis, List.take, List.drop]
  · intro vs hlen
    have hne : vs ≠ [] := by
      intro h
      rw [h] at hlen
      simp at hlen
    have h1 : vs.take (vs.length / 2) ≠ [] := by
      rw [Ne, List.take_eq_nil_iff]
      push_neg
      refine ⟨by omega, hne⟩
    have h2 : vs.drop (vs.length / 2) ≠ [] := by
      rw [Ne, List.drop_eq_nil_iff]
      omega
    simp only [trendAnalysis, if_pos hlen, if_neg h1, if_neg h2,
      firstHalfMean, secondHalfMean]
    refine ⟨?_, ?_, ?_, ?_⟩ <;> split_ifs <;> simp_all

/-- Witness for C9 at a concrete series. -/
theorem C9_trend_analysis_witness :
    2 ≤ ([10, 10, 100, 100] : List ℚ).length
    ∧ ((trendAnalysis [10, 10, 100, 100]).1 = "up"
        ↔ firstHalfMean [10, 10, 100, 100] * (105/100)
            < secondHalfMean [10, 10, 100, 100]) := by
  refine ⟨by decide, ?_⟩
  exact (C9_trend_analysis.2 [10, 10, 100, 100] (by decide)).1

/-- The tier loop breaks immediately when no units remain. -/
theorem applyTiersLoop_of_nonpos (uc : ℚ) (ts : List Tier) (remaining acc : ℚ)
    (h : remaining ≤ 0) : applyTiersLoop uc ts remaining acc = acc := by
  cases ts with
  | nil => rfl
  | cons t rest => simp [applyTiersLoop, if_pos h]

/-- Tiers anchored at or above the unit count contribute no
specification cost. -/
theorem specTierCost_sum_zero (uc : ℚ) :
    ∀ (ts : List Tier) (a : ℚ), 0 ≤ a → uc ≤ a → tiersFrom a ts = true →
      (ts.map (specTierCost uc)).sum = 0 := by
  intro ts
  induction ts with
  | nil => intro a _ _ _; simp
  | cons t rest ih =>
    intro a ha hua h
    obtain ⟨tf, tto, tr⟩ := t
    cases tto with
    | none =>
      simp only [tiersFrom, Bool.and_eq_true, decide_eq_true_eq,
        List.isEmpty_iff] at h
      obtain ⟨rfl, rfl⟩ := h
      have hzero : uc - max tf 0 ≤ 0 := by
        rw [max_eq_left ha]
        linarith
      simp [specTierCost, max_eq_left hzero]
    | some b =>
      simp only [tiersFrom, Bool.and_eq_true, decide_eq_true_eq] at h
      obtain ⟨rfl, hab, hrest⟩ := h
      have hzero : min b uc - max tf 0 ≤ 0 := by
        rw [max_eq_left ha]
        have : min b uc ≤ uc := min_le_right b uc
        linarith
      simp only [List.map_cons, List.sum_cons, specTierCost,
        max_eq_left hzero, mul_zero, zero_add]
      exact ih b (ha.trans hab) (hua.trans hab) hrest

/-- The tier loop of `_apply_tiered_rates`, run on a sorted contiguous
schedule anchored at `a` with `remaining_units = unit_count - a`,
accumulates exactly the specification's piecewise sum. -/
theorem applyTiersLoop_eq_spec (uc : ℚ) :
    ∀ (ts : List Tier) (a : ℚ), 0 ≤ a → tiersFrom a ts = true →
      ∀ acc : ℚ, applyTiersLoop uc ts (uc - a) acc
        = acc + (ts.map (specTierCost uc)).sum := by
  intro ts
  induction ts with
  | nil => intro a _ _ acc; simp [applyTiersLoop]
  | cons t rest ih =>
    intro a ha h acc
    obtain ⟨tf, tto, tr⟩ := t
    by_cases hcase : uc - a ≤ 0
    · rw [applyTiersLoop, if_pos hcase,
        specTierCost_sum_zero uc (⟨tf, tto, tr⟩ :: rest) a ha (by linarith) h,
        add_zero]
    · have halt : a < uc := by linarith
      cases tto with
      | none =>
        simp only [tiersFrom, Bool.and_eq_true, decide_eq_true_eq,
          List.isEmpty_iff] at h
        obtain ⟨rfl, rfl⟩ := h
        have hnotle : ¬ uc ≤ tf := not_le.mpr halt
        rw [applyTiersLoop, if_neg hcase, if_neg hnotle]
        simp only [List.map_cons, List.map_nil, List.sum_cons, List.sum_nil,
          applyTiersLoop, specTierCost, max_eq_left ha]
        have : max 0 (uc - tf) = uc - tf := max_eq_right (by linarith)
        rw [this]
        ring
      | some b =>
        simp only [tiersFrom, Bool.and_eq_true, decide_eq_true_eq] at h
        obtain ⟨rfl, hab, hrest⟩ := h
        have hnotle : ¬ uc ≤ tf := not_le.mpr halt
        rw [applyTiersLoop, if_neg hcase, if_neg hnotle]
        simp only [List.map_cons, List.sum_cons]
        by_cases hb : uc ≤ b
        · have hmin : min (uc - tf) (b - tf) = uc - tf :=
            min_eq_left (by linarith)
          rw [hmin, applyTiersLoop_of_nonpos uc rest _ _ (by linarith),
            specTierCost_sum_zero uc rest b (by linarith) hb hrest]
          have hcost : specTierCost uc ⟨tf, some b, tr⟩ = tr * (uc - tf) := by
            simp only [specTierCost, max_eq_left ha, min_eq_right hb]
            rw [max_eq_right (by linarith)]
          rw [hcost]
          ring
        · have hbu : b < uc := lt_of_not_le hb
          have hmin : min (uc - tf) (b - tf) = b - tf :=
            min_eq_right (by linarith)
          rw [hmin]
          have harg : uc - tf - (b - tf) = uc - b := by ring
          rw [harg, ih b (by linarith) hrest]
          have hcost : specTierCost uc ⟨tf, some b, tr⟩ = tr * (b - tf) := by
            simp only [specTierCost, max_eq_left ha, min_eq_left hbu.le]
            rw [max_eq_right (by linarith)]
          rw [hcost]
          ring

/-- C4: the literal schedule
`[{0,1000,0.01},{1000,10000,0.008},{10000,null,0.005}]` prices
`unit_count = 15000` at exactly 107.000000, and in general, on a
sorted contiguous schedule tiling the unit line from 0, each tier
contributes the width of `[max(from, 0), min(to, unit_count))` times
its rate. -/
theorem C4_tiered_pricing :
    (calculateEventCost "llm_service" [("total_tokens", 15000)]
        (some exampleTieredRule) 0).total_cost = 107
    ∧ ∀ (tiers : List Tier) (base_rate uc : ℚ),
        tiers ≠ [] → tiersFrom 0 tiers = true → 0 ≤ uc →
        applyTieredRates uc ⟨tiers⟩ base_rate
          = (tiers.map (specTierCost uc)).sum := by
  constructor
  · norm_num +decide [calculateEventCost, exampleTieredRule, exampleTiers,
      calculateUnitCount, metricsGet, applyTieredRates, applyTiersLoop,
      round6, min_def, List.lookup]
  · intro tiers base_rate uc hne h0 huc
    have h := applyTiersLoop_eq_spec uc tiers 0 le_rfl h0 0
    rw [sub_zero, zero_add] at h
    simp only [applyTieredRates, if_neg hne]
    exact h

/-- Witness for C4 at the literal schedule. -/
theorem C4_tiered_pricing_witness :
    exampleTiers ≠ [] ∧ tiersFrom 0 exampleTiers = true ∧ (0 : ℚ) ≤ 15000
    ∧ applyTieredRates 15000 ⟨exampleTiers⟩ 0
        = (exampleTiers.map (specTierCost 15000)).sum := by
  refine ⟨by decide, by decide, by decide, ?_⟩
  exact C4_tiered_pricing.2 exampleTiers 0 15000 (by decide) (by decide) (by decide)

/-- Counterexample to C3: for a rule with a single all-covering tier at
rate 0.001 and `minimum_charge = 5`, pricing 100 units yields
`total_cost = 0.1`, not `max(0.1, 5) = 5`: the source applies the
minimum charge to the flat cost and then overwrites `total_cost` with
the tiered value. -/
theorem C3_minimum_charge_counterexample :
    (calculateEventCost "llm_service" [("total_tokens", 100)]
        (some minChargeTieredRule) 0).total_cost = 1/10
    ∧ minChargeTieredRule.minimum_charge = some 5
    ∧ round6 (max (applyTieredRates
          (calculateUnitCount "llm_service" minChargeTieredRule.billing_unit
            [("total_tokens", 100)])
          ⟨[⟨0, none, 1/1000⟩]⟩ minChargeTieredRule.rate_per_unit) 5) = 5
    ∧ ((1 : ℚ)/10) ≠ 5 := by
  refine ⟨?_, rfl, ?_, by norm_num⟩
  · norm_num +decide [calculateEventCost, minChargeTieredRule,
      calculateUnitCount, metricsGet, applyTieredRates, applyTiersLoop,
      round6, min_def, List.lookup]
  · norm_num +decide [minChargeTieredRule, calculateUnitCount, metricsGet,
      applyTieredRates, applyTiersLoop, round6, min_def, max_def,
      List.lookup]

/-- C3 as amended: when `tiered_rates` with a non-empty tier list is
present, `total_cost` is the tiered cost rounded to six decimal
places, with no minimum applied — it does not depend on
`minimum_charge` at all. -/
theorem C3_minimum_charge_amended (st : String) (metrics : Metrics)
    (r : BillingRuleInfo) (tr : TieredRates) (now : ℤ)
    (htr : r.tiered_rates = some tr) (hne : tr.tiers ≠ []) :
    (calculateEventCost st metrics (some r) now).total_cost
      = round6 (applyTieredRates
          (calculateUnitCount st r.billing_unit metrics) tr r.rate_per_unit)
    ∧ ∀ mc : Option ℚ,
        (calculateEventCost st metrics
            (some { r with minimum_charge := mc }) now).total_cost
          = (calculateEventCost st metrics (some r) now).total_cost := by
  constructor
  · simp only [calculateEventCost, htr]
  · intro mc
    simp only [calculateEventCost, htr]

/-- Witness for C3 as amended, at the counterexample rule. -/
theorem C3_minimum_charge_amended_witness :
    minChargeTieredRule.tiered_rates = some ⟨[⟨0, none, 1/1000⟩]⟩
    ∧ (⟨[⟨0, none, (1 : ℚ)/1000⟩]⟩ : TieredRates).tiers ≠ []
    ∧ (calculateEventCost "llm_service" [("total_tokens", 100)]
          (some minChargeTieredRule) 0).total_cost
        = round6 (applyTieredRates
            (calculateUnitCount "llm_service" minChargeTieredRule.billing_unit
              [("total_tokens", 100)])
            ⟨[⟨0, none, 1/1000⟩]⟩ minChargeTieredRule.rate_per_unit) := by
  refine ⟨rfl, by decide, ?_⟩
  exact (C3_minimum_charge_amended "llm_service" [("total_tokens", 100)]
    minChargeTieredRule ⟨[⟨0, none, 1/1000⟩]⟩ 0 rfl (by decide)).1

/-- Counterexample to C8: an `llm_service` event carrying every
required field with `input_tokens = 0` and `output_tokens = 5` (both
`≥ 0`) is rejected by the server validator (`input_tokens` is declared
with `gt=0`). -/
theorem C8_zero_input_tokens_counterexample :
    validateLLMEvent c8Event = none
    ∧ c8Event.input_tokens = some 0
    ∧ c8Event.output_tokens = some 5
    ∧ (0 : ℤ) ≥ 0 ∧ (5 : ℤ) ≥ 0 := by
  decide

/-- C8 as amended: for an `llm_service` event carrying all required
fields (with in-range lengths and no optional bounds in play),
validation succeeds exactly when `input_tokens > 0` and
`output_tokens ≥ 0` — an event with `input_tokens = 0` is rejected —
and on success `total_tokens` is derived as
`input_tokens + output_tokens` when absent. -/
theorem C8_llm_validation_amended (e : LLMRawEvent) (tid uid sp m : String)
    (i o : ℤ)
    (htid : e.tenant_id = some tid) (huid : e.user_id = some uid)
    (hsp : e.service_provider = some sp) (hm : e.model = some m)
    (hi : e.input_tokens = some i) (ho : e.output_tokens = some o)
    (hlt1 : 1 ≤ tid.length) (hlt2 : tid.length ≤ 255)
    (hlu1 : 1 ≤ uid.length) (hlu2 : uid.length ≤ 255)
    (hls1 : 1 ≤ sp.length) (hls2 : sp.length ≤ 255)
    (hlm : 1 ≤ m.length)
    (htemp : e.temperature = none) (hmax : e.max_tokens = none)
    (hlat : e.latency_ms = none) :
    ((validateLLMEvent e).isSome ↔ (0 < i ∧ 0 ≤ o))
    ∧ (0 < i → 0 ≤ o →
        validateLLMEvent e = some
          { tenant_id := tid, user_id := uid, service_provider := sp
            model := m, input_tokens := i, output_tokens := o
            total_tokens := e.total_tokens.getD (i + o)
            temperature := none })
    ∧ (i = 0 → validateLLMEvent e = none) := by
  simp only [validateLLMEvent, htid, huid, hsp, hm, hi, ho, htemp, hmax, hlat]
  rw [decide_eq_true hlt1, decide_eq_true hlt2, decide_eq_true hlu1,
    decide_eq_true hlu2, decide_eq_true hls1, decide_eq_true hls2,
    decide_eq_true hlm]
  simp only [Bool.true_and, Bool.and_true]
  refine ⟨?_, ?_, ?_⟩
  · by_cases h1 : 0 < i <;> by_cases h2 : 0 ≤ o <;>
      simp [h1, h2]
  · intro h1 h2
    rw [decide_eq_true h1, decide_eq_true h2]
    simp
  · intro h0
    subst h0
    simp

/-- Witness for C8 as amended, at a concrete accepted event. -/
theorem C8_llm_validation_amended_witness :
    ((validateLLMEvent c8EventOk).isSome ↔ ((0 : ℤ) < 1 ∧ (0 : ℤ) ≤ 5)) := by
  exact (C8_llm_validation_amended c8EventOk "tenant-1" "user-1" "openai"
    "gpt-4" 1 5 rfl rfl rfl rfl rfl rfl (by decide) (by decide) (by decide)
    (by decide) (by decide) (by decide) (by decide) rfl rfl rfl).1

/-- With all three dimension filters absent, the aggregation query
selects exactly the tenant's completed events of the period. -/
theorem aggConditions_overall (events : List PyEvent) (tenant : String)
    (ps pe : ℤ) :
    events.filter (aggConditions tenant ps pe none none none)
      = completedEventsInPeriod events tenant ps pe := by
  unfold completedEventsInPeriod
  apply List.filter_congr
  intro r _
  simp only [aggConditions, Bool.and_true]

/-- Counterexample to C5: a single completed event with
`total_cost = 0` produces an overall aggregate row with
`event_count = 1` but `total_cost = NULL` — not the claimed sum 0 —
because the engine stores `float(total_cost) if total_cost else None`
and a zero sum is falsy. -/
theorem C5_aggregate_consistency_counterexample :
    (createAggregate [c5Event] "tenant-5" "hour" 0 10 none none none).map
        AggregateRow.event_count = some 1
    ∧ (createAggregate [c5Event] "tenant-5" "hour" 0 10 none none none).map
        AggregateRow.total_cost = some none
    ∧ ((completedEventsInPeriod [c5Event] "tenant-5" 0 10).map
        (fun r => r.total_cost.getD 0)).sum = 0 := by
  refine ⟨?_, ?_, ?_⟩ <;>
    norm_num +decide [createAggregate, aggConditions, sqlSum, sqlAvg,
      pyFloatOrNone, completedEventsInPeriod, c5Event, emptyEvent,
      List.dedup, List.filterMap_cons, List.filterMap_nil]

/-- C5 as amended: the overall aggregate row's `event_count` equals the
number of the tenant's completed events in `[period_start,
period_end)`; its `total_cost` equals the SQL sum of their `total_cost`
values passed through the `float(x) if x else None` conversion — i.e.
it equals the sum whenever the sum exists and is nonzero, and is NULL
when the sum is zero or all costs are NULL. -/
theorem C5_aggregate_consistency_amended (events : List PyEvent)
    (tenant period_type : String) (ps pe : ℤ) (row : AggregateRow)
    (h : createAggregate events tenant period_type ps pe none none none
          = some row) :
    row.event_count = (completedEventsInPeriod events tenant ps pe).length
    ∧ row.total_cost = pyFloatOrNone (sqlSum
        ((completedEventsInPeriod events tenant ps pe).map PyEvent.total_cost))
    ∧ ∀ s : ℚ,
        sqlSum ((completedEventsInPeriod events tenant ps pe).map
          PyEvent.total_cost) = some s →
        s ≠ 0 → row.total_cost = some s := by
  simp only [createAggregate, aggConditions_overall] at h
  split at h
  · exact absurd h (by simp)
  · obtain rfl := (Option.some_inj.mp h).symm
    refine ⟨rfl, rfl, ?_⟩
    intro s hs hns
    simp only [hs, pyFloatOrNone, if_neg hns]

/-- Witness for C5 as amended, at a concrete period with one completed
event of cost 7. -/
theorem C5_aggregate_consistency_amended_witness :
    createAggregate [c5EventB] "tenant-5" "hour" 5 10 none none none
        = some { tenant_id := "tenant-5", period_start := 5, period_end := 10
                 period_type := "hour", service_type := none
                 service_provider := none, user_id := none
                 event_count := 1, unique_users := 1, total_cost := some 7
                 avg_latency_ms := none, p95_latency_ms := none
                 error_count := 0, error_rate := 0 }
    ∧ (1 : ℕ) = (completedEventsInPeriod [c5EventB] "tenant-5" 5 10).length := by
  have h : createAggregate [c5EventB] "tenant-5" "hour" 5 10 none none none
      = some { tenant_id := "tenant-5", period_start := 5, period_end := 10
               period_type := "hour", service_type := none
               service_provider := none, user_id := none
               event_count := 1, unique_users := 1, total_cost := some 7
               avg_latency_ms := none, p95_latency_ms := none
               error_count := 0, error_rate := 0 } := by
    norm_num [createAggregate, aggConditions, sqlSum, sqlAvg, pyFloatOrNone,
      c5EventB, emptyEvent, List.dedup]
    try simp
  refine ⟨h, ?_⟩
  exact (C5_aggregate_consistency_amended [c5EventB] "tenant-5" "hour"
    5 10 _ h).1

/-- The first row of the ordered result is one of the candidates. -/
theorem foldl_pickRule_mem (rs : List BillingRule) (r0 : BillingRule) :
    rs.foldl pickRule r0 ∈ r0 :: rs := by
  induction rs generalizing r0 with
  | nil => simp
  | cons c rs ih =>
    simp only [List.foldl_cons]
    rcases List.mem_cons.mp (ih (pickRule r0 c)) with h1 | h1
    · rw [h1, pickRule]
      split
      · simp
      · simp
    · simp [List.mem_cons_of_mem, h1]

/-- A `NULLS LAST` winner with null `model_or_tier` means every
candidate's `model_or_tier` was null. -/
theorem foldl_pickRule_none (rs : List BillingRule) (r0 : BillingRule)
    (h : (rs.foldl pickRule r0).model_or_tier = none) :
    r0.model_or_tier = none ∧ ∀ x ∈ rs, x.model_or_tier = none := by
  induction rs generalizing r0 with
  | nil => simpa using h
  | cons c rs ih =>
    simp only [List.foldl_cons] at h
    obtain ⟨hp, hall⟩ := ih (pickRule r0 c) h
    have hrc : r0.model_or_tier = none ∧ c.model_or_tier = none := by
      by_cases hb : ruleSortsBefore c r0 = true
      · rw [pickRule, if_pos hb] at hp
        rcases hr0 : r0.model_or_tier with _ | m0
        · exact ⟨rfl, hp⟩
        · exfalso
          simp [ruleSortsBefore, hp, hr0] at hb
      · rw [pickRule, if_neg hb] at hp
        rcases hrc : c.model_or_tier with _ | mc
        · exact ⟨hp, rfl⟩
        · exfalso
          simp [ruleSortsBefore, hp, hrc] at hb
    refine ⟨hrc.1, ?_⟩
    intro x hx
    rcases List.mem_cons.mp hx with rfl | hx2
    · exact hrc.2
    · exact hall x hx2

/-- On candidates sharing the same `model_or_tier`, the ordered result
carries that model and the largest `effective_from`. -/
theorem foldl_pickRule_sameModel (m : String) (rs : List BillingRule)
    (r0 : BillingRule) (h0 : r0.model_or_tier = some m)
    (hall : ∀ x ∈ rs, x.model_or_tier = some m) :
    (rs.foldl pickRule r0).model_or_tier = some m
    ∧ r0.effective_from ≤ (rs.foldl pickRule r0).effective_from
    ∧ ∀ x ∈ rs, x.effective_from ≤ (rs.foldl pickRule r0).effective_from := by
  induction rs generalizing r0 with
  | nil => exact ⟨h0, le_refl _, by simp⟩
  | cons c rs ih =>
    simp only [List.foldl_cons]
    have hc : c.model_or_tier = some m := hall c (by simp)
    have hrs : ∀ x ∈ rs, x.model_or_tier = some m :=
      fun x hx => hall x (List.mem_cons_of_mem _ hx)
    have hpm : (pickRule r0 c).model_or_tier = some m := by
      rw [pickRule]
      split
      · exact hc
      · exact h0
    have hp0 : r0.effective_from ≤ (pickRule r0 c).effective_from
        ∧ c.effective_from ≤ (pickRule r0 c).effective_from := by
      by_cases hb : ruleSortsBefore c r0 = true
      · rw [pickRule, if_pos hb]
        have hlt : r0.effective_from < c.effective_from := by
          simpa [ruleSortsBefore, hc, h0] using hb
        exact ⟨hlt.le, le_refl _⟩
      · rw [pickRule, if_neg hb]
        have hge : ¬ r0.effective_from < c.effective_from := by
          simpa [ruleSortsBefore, hc, h0] using hb
        exact ⟨le_refl _, not_lt.mp hge⟩
    obtain ⟨im, i0, iall⟩ := ih (pickRule r0 c) hpm hrs
    refine ⟨im, hp0.1.trans i0, ?_⟩
    intro x hx
    rcases List.mem_cons.mp hx with rfl | hx2
    · exact hp0.2.trans i0
    · exact iall x hx2

/-- An empty ordered result means an empty candidate list. -/
theorem firstOrdered_eq_none (l : List BillingRule)
    (h : firstOrdered l = none) : l = [] := by
  cases l with
  | nil => rfl
  | cons r rs => exact absurd h (by simp [firstOrdered])

/-- A row matching the model-filtered query also matches the
query without the model filter. -/
theorem ruleMatches_model_imp_base (st prov m : String) (t : ℤ)
    (r : BillingRule)
    (h : ruleMatchesQuery st prov (some m) t r = true) :
    ruleMatchesQuery st prov none t r = true := by
  simp only [ruleMatchesQuery, Bool.and_eq_true, Bool.and_true] at h ⊢
  tauto

/-- The model filter with an empty string is no filter (Python
truthiness on the `model_or_tier` argument). -/
theorem ruleMatches_empty_model (st prov : String) (t : ℤ)
    (r : BillingRule) :
    ruleMatchesQuery st prov (some "") t r
      = ruleMatchesQuery st prov none t r := by
  simp [ruleMatchesQuery]

/-- The model filter keeps only rows with that `model_or_tier`. -/
theorem ruleMatches_model_eq (st prov m : String) (hm : m ≠ "") (t : ℤ)
    (r : BillingRule)
    (h : ruleMatchesQuery st prov (some m) t r = true) :
    r.model_or_tier = some m := by
  simp only [ruleMatchesQuery, Bool.and_eq_true, if_neg hm,
    decide_eq_true_eq] at h
  exact h.2

/-- Counterexample to C1: an event with timestamp 10 and no model,
processed at time 200 against a provider-default rule effective over
`[0, 50)` and an unrelated-model rule effective from 100.  The claimed
selection (at the event's timestamp, preferring the null-model rule)
picks the provider-default rule; the code selects the other-model rule,
whose effectivity interval does not even contain the event's
timestamp, because it filters at processing time and orders
`model_or_tier DESC NULLS LAST`. -/
theorem C1_rule_selection_counterexample :
    usedBillingRule [c1RuleOld, c1RuleOther] c1Event 200 = some c1RuleOther
    ∧ claimRuleSelection [c1RuleOld, c1RuleOther] "llm_service" "openai"
        c1Event.model 10 = some c1RuleOld
    ∧ c1Event.timestamp = some 10
    ∧ c1Event.model = none
    ∧ c1RuleOther ≠ c1RuleOld
    ∧ ¬ (c1RuleOther.effective_from ≤ 10) := by
  decide

/-- C1 as amended: the rule used to price an event is selected among
rules with matching `service_type` and `provider` that are active and
whose `[effective_from, effective_until)` contains the processing time
(not the event's timestamp).  When the event carries a non-empty model
and a matching-model rule exists, a rule with exactly that
`model_or_tier` and the largest `effective_from` among the matching
ones is chosen; otherwise the fallback query orders all matching rules
by `model_or_tier` descending with nulls last, so a null-model
(provider-default) rule is returned only when no rule carries a
non-null `model_or_tier`. -/
theorem C1_rule_selection_amended (rules : List BillingRule)
    (st prov : String) (model : Option String) (now : ℤ) (r : BillingRule)
    (h : selectBillingRule rules st prov model now = some r) :
    r ∈ rules.filter (ruleMatchesQuery st prov none now)
    ∧ (r.model_or_tier = none →
        ∀ x ∈ rules.filter (ruleMatchesQuery st prov none now),
          x.model_or_tier = none)
    ∧ ∀ m : String, model = some m → m ≠ "" →
        ∀ x ∈ rules.filter (ruleMatchesQuery st prov (some m) now),
          r.model_or_tier = some m ∧ x.effective_from ≤ r.effective_from := by
  have base_case :
      ∀ r, getActiveBillingRule rules st prov none now = some r →
        r ∈ rules.filter (ruleMatchesQuery st prov none now)
        ∧ (r.model_or_tier = none →
            ∀ x ∈ rules.filter (ruleMatchesQuery st prov none now),
              x.model_or_tier = none) := by
    intro r h
    unfold getActiveBillingRule at h
    rcases hl : rules.filter (ruleMatchesQuery st prov none now) with _ | ⟨r1, rest⟩
    · rw [hl] at h
      exact absurd h (by simp [firstOrdered])
    · rw [hl] at h
      simp only [firstOrdered, Option.some_inj] at h
      subst h
      constructor
      · exact foldl_pickRule_mem rest r1
      · intro hnone x hx
        obtain ⟨h1, hall⟩ := foldl_pickRule_none rest r1 hnone
        rcases List.mem_cons.mp hx with rfl | hx2
        · exact h1
        · exact hall x hx2
  rcases hq : getActiveBillingRule rules st prov model now with _ | r1
  · -- fallback query
    rw [selectBillingRule, hq] at h
    obtain ⟨hmem, hnone⟩ := base_case r h
    refine ⟨hmem, hnone, ?_⟩
    intro m hm hne x hx
    exfalso
    subst hm
    unfold getActiveBillingRule at hq
    rw [firstOrdered_eq_none _ hq] at hx
    exact absurd hx (List.not_mem_nil x)
  · rw [selectBillingRule, hq] at h
    obtain rfl := Option.some_inj.mp h
    rcases model with _ | m
    · -- no model given: the first query is already the base query
      obtain ⟨hmem, hnone⟩ := base_case r1 hq
      refine ⟨hmem, hnone, ?_⟩
      intro m hm
      exact absurd hm (by simp)
    · by_cases hme : m = ""
      · subst hme
        have hq2 : getActiveBillingRule rules st prov none now = some r1 := by
          unfold getActiveBillingRule at hq ⊢
          rwa [List.filter_congr
            (fun x _ => ruleMatches_empty_model st prov now x)] at hq
        obtain ⟨hmem, hnone⟩ := base_case r1 hq2
        refine ⟨hmem, hnone, ?_⟩
        intro m0 hm0 hne0 x hx
        obtain rfl := Option.some_inj.mp hm0
        exact absurd rfl hne0
      · -- non-empty model: the first query filtered on model_or_tier
        unfold getActiveBillingRule at hq
        rcases hl : rules.filter (ruleMatchesQuery st prov (some m) now)
          with _ | ⟨m1, mrest⟩
        · rw [hl] at hq
          exact absurd hq (by simp [firstOrdered])
        · rw [hl] at hq
          simp only [firstOrdered, Option.some_inj] at hq
          subst hq
          have hm1 : m1.model_or_tier = some m := by
            apply ruleMatches_model_eq st prov m hme now
            have : m1 ∈ rules.filter (ruleMatchesQuery st prov (some m) now) := by
              rw [hl]
              simp
            exact (List.mem_filter.mp this).2
          have hmall : ∀ x ∈ mrest, x.model_or_tier = some m := by
            intro x hx
            apply ruleMatches_model_eq st prov m hme now
            have : x ∈ rules.filter (ruleMatchesQuery st prov (some m) now) := by
              rw [hl]
              exact List.mem_cons_of_mem _ hx
            exact (List.mem_filter.mp this).2
          obtain ⟨hrm, hr0, hrall⟩ := foldl_pickRule_sameModel m mrest m1 hm1 hmall
          have hmemM : mrest.foldl pickRule m1
              ∈ rules.filter (ruleMatchesQuery st prov (some m) now) := by
            rw [hl]
            exact foldl_pickRule_mem mrest m1
          refine ⟨?_, ?_, ?_⟩
          · rw [List.mem_filter]
            obtain ⟨hin, hpred⟩ := List.mem_filter.mp hmemM
            exact ⟨hin, ruleMatches_model_imp_base st prov m now _ hpred⟩
          · intro hnone
            rw [hrm] at hnone
            exact absurd hnone (by simp)
          · intro m0 hm0 hne0 x hx
            obtain rfl := Option.some_inj.mp hm0
            rw [hl] at hx
            rcases List.mem_cons.mp hx with rfl | hx2
            · exact ⟨hrm, hr0⟩
            · exact ⟨hrm, hrall x hx2⟩

/-- Witness for C1 as amended, at a concrete model-specific selection. -/
theorem C1_rule_selection_amended_witness :
    selectBillingRule [c1RuleOther] "llm_service" "openai"
        (some "zzz-model") 150 = some c1RuleOther
    ∧ c1RuleOther
        ∈ [c1RuleOther].filter (ruleMatchesQuery "llm_service" "openai" none 150) := by
  have h : selectBillingRule [c1RuleOther] "llm_service" "openai"
      (some "zzz-model") 150 = some c1RuleOther := by decide
  exact ⟨h, (C1_rule_selection_amended [c1RuleOther] "llm_service" "openai"
    (some "zzz-model") 150 c1RuleOther h).1⟩

/-- Processing never changes an event's `event_id`. -/
theorem processSingleEvent_event_id (rules : List BillingRule) (e : PyEvent)
    (now : ℤ) (p : PyEvent) (h : processSingleEvent rules e now = some p) :
    p.event_id = e.event_id := by
  unfold processSingleEvent at h
  rcases he : e.event_id with _ | eid
  · simp only [he] at h
    exact absurd h (by simp)
  · simp only [he] at h
    split at h
    · obtain rfl := Option.some_inj.mp h
      simpa [enrichEvent] using he
    · obtain rfl := Option.some_inj.mp h
      simpa using he

/-- The `total_cost` computed by `calculate_event_cost` does not depend
on the wall-clock time (only `calculated_at` does). -/
theorem calculateEventCost_cost_const (st : String) (ms : Metrics)
    (rb : Option BillingRuleInfo) (t1 t2 : ℤ) :
    (calculateEventCost st ms rb t2).total_cost
      = (calculateEventCost st ms rb t1).total_cost := by
  cases rb <;> rfl

/-- Enrichment does not change the service type. -/
theorem enrichEvent_service_type (e : PyEvent) (t : ℤ) :
    (enrichEvent e t).service_type = e.service_type := rfl

/-- Enrichment does not change the provider. -/
theorem enrichEvent_service_provider (e : PyEvent) (t : ℤ) :
    (enrichEvent e t).service_provider = e.service_provider := rfl

/-- Enrichment does not change the metadata model. -/
theorem enrichEvent_model (e : PyEvent) (t : ℤ) :
    (enrichEvent e t).model = e.model := rfl

/-- The enriched metrics do not depend on the processing time. -/
theorem enrichEvent_metrics_const (e : PyEvent) (t1 t2 : ℤ) :
    (enrichEvent e t2).metrics = (enrichEvent e t1).metrics := rfl

/-- When rule selection agrees at the two processing times, the billing
`total_cost` agrees as well. -/
theorem calculateBilling_cost_const (rules : List BillingRule) (e : PyEvent)
    (t1 t2 : ℤ) (st prov : String)
    (hst : e.service_type = some st) (hprov : e.service_provider = some prov)
    (hsel : selectBillingRule rules st prov e.model t2
              = selectBillingRule rules st prov e.model t1) :
    (calculateBilling rules (enrichEvent e t2) t2).total_cost
      = (calculateBilling rules (enrichEvent e t1) t1).total_cost := by
  simp only [calculateBilling, enrichEvent_service_type,
    enrichEvent_service_provider, enrichEvent_model, hst, hprov]
  split_ifs
  · rfl
  · rw [hsel]
    rcases hsel1 : selectBillingRule rules st prov e.model t1 with _ | rule
    · rfl
    · rw [enrichEvent_metrics_const e t1 t2]
      exact calculateEventCost_cost_const st (enrichEvent e t1).metrics
        (some (ruleToInfo rule)) t1 t2

/-- Re-processing the same queue payload at two times yields the same
`total_cost` provided rule selection agrees at both times. -/
theorem processSingleEvent_cost_const (rules : List BillingRule) (e : PyEvent)
    (t1 t2 : ℤ) (p1 p2 : PyEvent) (st prov : String)
    (hst : e.service_type = some st) (hprov : e.service_provider = some prov)
    (hsel : selectBillingRule rules st prov e.model t2
              = selectBillingRule rules st prov e.model t1)
    (h1 : processSingleEvent rules e t1 = some p1)
    (h2 : processSingleEvent rules e t2 = some p2) :
    p2.total_cost = p1.total_cost := by
  unfold processSingleEvent at h1 h2
  rcases he : e.event_id with _ | eid
  · simp only [he] at h1
    exact absurd h1 (by simp)
  · simp only [he] at h1 h2
    by_cases hreq : requiredFieldsPresent e = true
    · rw [if_pos hreq] at h1 h2
      obtain rfl := Option.some_inj.mp h1
      obtain rfl := Option.some_inj.mp h2
      exact congrArg some
        (calculateBilling_cost_const rules e t1 t2 st prov hst hprov hsel)
    · rw [if_neg hreq] at h1 h2
      obtain rfl := Option.some_inj.mp h1
      obtain rfl := Option.some_inj.mp h2
      rfl

/-- Looking up the conflicting `event_id` after an upsert that updated
an existing row yields a row carrying the new event's `status`,
`billing_info` and `total_cost` (the `DO UPDATE SET` columns). -/
theorem upsert_update_find (p : PyEvent) (eid : String)
    (hp : p.event_id = some eid) :
    ∀ (store : List PyEvent) (row : PyEvent),
      (store.map (fun r =>
        if r.event_id = p.event_id then
          { r with status := p.status, billing_info := p.billing_info
                   total_cost := p.total_cost, error_message := p.error_message
                   retry_count := p.retry_count }
        else r)).find? (fun r => r.event_id = some eid) = some row →
      row.status = p.status ∧ row.billing_info = p.billing_info
        ∧ row.total_cost = p.total_cost := by
  intro store
  induction store with
  | nil =>
    intro row h
    simp at h
  | cons r rs ih =>
    intro row h
    simp only [List.map_cons] at h
    by_cases hr : r.event_id = p.event_id
    · rw [if_pos hr] at h
      rw [List.find?_cons_of_pos] at h
      · obtain rfl := (Option.some_inj.mp h).symm
        exact ⟨rfl, rfl, rfl⟩
      · show decide _ = true
        rw [decide_eq_true_eq]
        show r.event_id = some eid
        rw [hr, hp]
    · rw [if_neg hr] at h
      rw [List.find?_cons_of_neg] at h
      · exact ih row h
      · show ¬ decide _ = true
        rw [decide_eq_true_eq]
        show ¬ r.event_id = some eid
        rw [← hp]
        exact hr

/-- After `upsert_event(p)`, the row found under `p`'s `event_id`
carries `p`'s `status`, `billing_info` and `total_cost`. -/
theorem upsertEvent_find_fields (store : List PyEvent) (p : PyEvent)
    (eid : String) (hp : p.event_id = some eid) (row : PyEvent)
    (hrow : findEvent (upsertEvent store p) eid = some row) :
    row.status = p.status ∧ row.billing_info = p.billing_info
      ∧ row.total_cost = p.total_cost := by
  unfold upsertEvent findEvent at hrow
  by_cases hany : store.any (fun r => r.event_id = p.event_id) = true
  · rw [if_pos hany] at hrow
    exact upsert_update_find p eid hp store row hrow
  · rw [if_neg hany] at hrow
    have hnone : store.find? (fun r => r.event_id = some eid) = none := by
      rw [List.find?_eq_none]
      intro x hx
      have := (List.any_eq_false.mp (Bool.not_eq_true _ ▸ hany)) x hx
      simp only [decide_eq_true_eq] at this ⊢
      rw [← hp]
      exact fun hcon => this (by simp [hcon])
    rw [List.find?_append, hnone] at hrow
    simp only [Option.none_orElse, List.find?_cons, List.find?_nil] at hrow
    rw [show (decide (p.event_id = some eid)) = true from by
      rw [decide_eq_true_eq]; exact hp] at hrow
    obtain rfl := (Option.some_inj.mp hrow).symm
    exact ⟨rfl, rfl, rfl⟩

/-- Counterexample to C2: processing the duplicate delivery of
`c2Event` at time 1 after storing its first processing (completed, at
time 0) leaves `total_cost` unchanged but replaces `billing_info` —
the upsert overwrites it with a dictionary whose `calculated_at` is
the new processing time. -/
theorem C2_reprocessing_counterexample :
    processSingleEvent [c2Rule] c2Event 0 = some (c2Row 0)
    ∧ (c2Row 0).status = "completed"
    ∧ processSingleEvent [c2Rule] c2Event 1 = some (c2Row 1)
    ∧ findEvent (upsertEvent (upsertEvent [] (c2Row 0)) (c2Row 1)) "evt-c2"
        = some { c2Row 0 with billing_info := some (c2Billing 1) }
    ∧ (c2Row 1).total_cost = (c2Row 0).total_cost
    ∧ (c2Row 1).billing_info ≠ (c2Row 0).billing_info := by
  refine ⟨?_, rfl, ?_, by decide, rfl, by decide⟩
  · norm_num +decide [processSingleEvent, requiredFieldsPresent, enrichEvent,
      metricsSet, calculateBilling, selectBillingRule, getActiveBillingRule,
      ruleMatchesQuery, firstOrdered, ruleToInfo, calculateEventCost,
      calculateUnitCount, metricsGet, round6, c2Rule, c2Event, c2Row,
      c2Billing, emptyEvent, List.lookup, List.filter]
  · norm_num +decide [processSingleEvent, requiredFieldsPresent, enrichEvent,
      metricsSet, calculateBilling, selectBillingRule, getActiveBillingRule,
      ruleMatchesQuery, firstOrdered, ruleToInfo, calculateEventCost,
      calculateUnitCount, metricsGet, round6, c2Rule, c2Event, c2Row,
      c2Billing, emptyEvent, List.lookup, List.filter]

/-- C2 as amended: re-processing a duplicate delivery overwrites the
stored row's `status`, `billing_info` and `total_cost` with the
re-computed values; when rule selection agrees at both processing
times the `total_cost` is unchanged, while `billing_info` is replaced
by the new dictionary (whose `calculated_at` is the new time). -/
theorem C2_reprocessing_amended (rules : List BillingRule) (e : PyEvent)
    (t1 t2 : ℤ) (p1 p2 : PyEvent) (store : List PyEvent) (eid : String)
    (row : PyEvent) (st prov : String)
    (hst : e.service_type = some st) (hprov : e.service_provider = some prov)
    (heid : e.event_id = some eid)
    (hsel : selectBillingRule rules st prov e.model t2
              = selectBillingRule rules st prov e.model t1)
    (h1 : processSingleEvent rules e t1 = some p1)
    (h2 : processSingleEvent rules e t2 = some p2)
    (hrow : findEvent (upsertEvent store p2) eid = some row) :
    row.total_cost = p1.total_cost
    ∧ row.billing_info = p2.billing_info
    ∧ row.status = p2.status := by
  have hp2 : p2.event_id = some eid := by
    rw [processSingleEvent_event_id rules e t2 p2 h2, heid]
  obtain ⟨hs, hb, hc⟩ := upsertEvent_find_fields store p2 eid hp2 row hrow
  refine ⟨?_, hb, hs⟩
  rw [hc]
  exact processSingleEvent_cost_const rules e t1 t2 p1 p2 st prov
    hst hprov hsel h1 h2

/-- Witness for C2 as amended, at the concrete duplicate delivery. -/
theorem C2_reprocessing_amended_witness :
    c2Event.service_type = some "llm_service"
    ∧ selectBillingRule [c2Rule] "llm_service" "openai" c2Event.model 1
        = selectBillingRule [c2Rule] "llm_service" "openai" c2Event.model 0
    ∧ ({ c2Row 0 with billing_info := some (c2Billing 1) } : PyEvent).total_cost
        = (c2Row 0).total_cost := by
  have h1 : processSingleEvent [c2Rule] c2Event 0 = some (c2Row 0) := by
    norm_num +decide [processSingleEvent, requiredFieldsPresent, enrichEvent,
      metricsSet, calculateBilling, selectBillingRule, getActiveBillingRule,
      ruleMatchesQuery, firstOrdered, ruleToInfo, calculateEventCost,
      calculateUnitCount, metricsGet, round6, c2Rule, c2Event, c2Row,
      c2Billing, emptyEvent, List.lookup, List.filter]
  have h2 : processSingleEvent [c2Rule] c2Event 1 = some (c2Row 1) := by
    norm_num +decide [processSingleEvent, requiredFieldsPresent, enrichEvent,
      metricsSet, calculateBilling, selectBillingRule, getActiveBillingRule,
      ruleMatchesQuery, firstOrdered, ruleToInfo, calculateEventCost,
      calculateUnitCount, metricsGet, round6, c2Rule, c2Event, c2Row,
      c2Billing, emptyEvent, List.lookup, List.filter]
  have hrow : findEvent (upsertEvent (upsertEvent [] (c2Row 0)) (c2Row 1))
      "evt-c2" = some { c2Row 0 with billing_info := some (c2Billing 1) } := by
    decide
  refine ⟨rfl, by decide, ?_⟩
  exact (C2_reprocessing_amended [c2Rule] c2Event 0 1 (c2Row 0) (c2Row 1)
    (upsertEvent [] (c2Row 0)) "evt-c2" _ "llm_service" "openai"
    rfl rfl rfl (by decide) h1 h2 hrow).1

end UsageTracking
